import Mathlib

/-!
Verification development for the LTE_manager repository.

The definitions below are a shallow embedding of the modem engine in
src/lte_manager.py and of the SMS text codec in src/sms_utils.py.
Strings model the str values of the source (which are always free of lone
surrogates on the paths modelled here, because all serial input is decoded
with utf-8/replace), byte strings are lists of Nat below 256, and
exceptions of the source are modelled with Except where the control flow
depends on them.  Wall-clock times are Nat milliseconds.
-/

set_option maxRecDepth 2000

namespace LTE

/-! ## Basic string helpers (models of the str operations used by the source) -/

/-- Boolean test that `pat` is a leading segment of `l`. -/
def listHasPre : List Char → List Char → Bool
  | [], _ => true
  | _ :: _, [] => false
  | a :: asr, b :: bs => a == b && listHasPre asr bs

/-- Boolean test that `pat` occurs contiguously inside `l`. -/
def listHasSub (pat : List Char) : List Char → Bool
  | [] => listHasPre pat []
  | b :: bs => listHasPre pat (b :: bs) || listHasSub pat bs

/-- Model of `s.startswith(pat)`. -/
def strStartsWith (s pat : String) : Bool := listHasPre pat.data s.data

/-- Model of the `pat in s` substring test. -/
def strContains (s pat : String) : Bool := listHasSub pat.data s.data

/-- Model of `s.endswith(pat)`. -/
def strEndsWith (s pat : String) : Bool := listHasPre pat.data.reverse s.data.reverse

/-- Model of `s.split(sep)` for a one-character separator. -/
def splitOnChar (sep : Char) : List Char → List (List Char)
  | [] => [[]]
  | a :: asr =>
    let r := splitOnChar sep asr
    if a == sep then [] :: r
    else
      match r with
      | [] => [[a]]
      | h :: t => (a :: h) :: t

/-- Model of `line.split(sep)` on strings. -/
def pySplit (sep : Char) (s : String) : List String :=
  (splitOnChar sep s.data).map (fun l => ⟨l⟩)

/-- Characters treated as whitespace by strip and split: the blank, and
the ASCII control range from tab through carriage return. -/
def isSpaceChar (c : Char) : Bool := c.toNat == 32 || (9 ≤ c.toNat && c.toNat ≤ 13)

/-- Model of `s.strip()`. -/
def pyTrim (s : String) : String :=
  ⟨((s.data.dropWhile isSpaceChar).reverse.dropWhile isSpaceChar).reverse⟩

/-- Model of `s.split()` (split on whitespace runs, dropping empty pieces). -/
def pySplitWs (s : String) : List String :=
  ((splitOnChar ' ' (s.data.map (fun c => if isSpaceChar c then ' ' else c))).filter
    (fun l => l ≠ [])).map (fun l => ⟨l⟩)

/-- Model of `s.replace(pat, repl)` (all occurrences, left to right); the
first argument is evaluation fuel, always called with the length of the list. -/
def replaceAllAux (pat repl : List Char) : Nat → List Char → List Char
  | 0, l => l
  | fuel + 1, l =>
    if pat ≠ [] ∧ listHasPre pat l then
      repl ++ replaceAllAux pat repl fuel (l.drop pat.length)
    else
      match l with
      | [] => []
      | a :: asr => a :: replaceAllAux pat repl fuel asr

/-- Model of `s.replace(pat, repl)` on strings. -/
def pyReplace (s pat repl : String) : String :=
  ⟨replaceAllAux pat.data repl.data s.data.length s.data⟩

/-- Scan a list left to right and return the first position where `f` matches;
this models the search loop of `re.search` for the patterns used below. -/
def scanFirst {α : Type} (f : List Char → Option α) : List Char → Option α
  | [] => f []
  | c :: cs =>
    match f (c :: cs) with
    | some r => some r
    | none => scanFirst f cs

/-! ## UTF-16 codec and hex strings (models of the codecs used by sms_utils.py) -/

/-- The scalar value named by a surrogate pair of code units. -/
def surrPairVal (u1 u2 : Nat) : Nat := 65536 + 1024 * (u1 - 55296) + (u2 - 56320)

/-- The high-surrogate code unit for a scalar value offset. -/
def surrHiUnit (v : Nat) : Nat := 55296 + v / 1024

/-- The low-surrogate code unit for a scalar value offset. -/
def surrLoUnit (v : Nat) : Nat := 56320 + v % 1024

/-- Encode a text to UTF-16 big-endian bytes; on Lean strings (no lone
surrogates) the encode of the source never raises. -/
def utf16Encode : List Char → List Nat
  | [] => []
  | c :: cs =>
    let n := c.toNat
    (if n < 0x10000 then [n / 256, n % 256]
     else
       [surrHiUnit (n - 65536) / 256, surrHiUnit (n - 65536) % 256,
        surrLoUnit (n - 65536) / 256, surrLoUnit (n - 65536) % 256])
      ++ utf16Encode cs

/-- Combine two bytes into a UTF-16 code unit (little-endian when `le`). -/
def u16 (le : Bool) (b0 b1 : Nat) : Nat :=
  match le with
  | true => b1 * 256 + b0
  | false => b0 * 256 + b1

/-- Strict UTF-16 decode of a byte list (little-endian when `le` is true);
`none` models a UnicodeDecodeError. -/
def utf16Decode (le : Bool) : List Nat → Option (List Char)
  | [] => some []
  | [_] => none
  | b0 :: b1 :: rest =>
    if u16 le b0 b1 < 0xD800 ∨ 0xE000 ≤ u16 le b0 b1 then
      (utf16Decode le rest).map (fun l => Char.ofNat (u16 le b0 b1) :: l)
    else if u16 le b0 b1 < 0xDC00 then
      match rest with
      | b2 :: b3 :: rest2 =>
        if 0xDC00 ≤ u16 le b2 b3 ∧ u16 le b2 b3 < 0xE000 then
          (utf16Decode le rest2).map
            (fun l => Char.ofNat (surrPairVal (u16 le b0 b1) (u16 le b2 b3)) :: l)
        else none
      | _ => none
    else none

/-- UTF-16 big-endian decode of one two-byte unit with errors ignored:
a valid scalar gives one character, anything else gives nothing. -/
def decodeIgnore2 (b0 b1 : Nat) : List Char :=
  let u := b0 * 256 + b1
  if u < 0xD800 ∨ 0xE000 ≤ u then [Char.ofNat u] else []

/-- UTF-16 big-endian decode with replacement characters, never failing;
models decode with errors set to replace. -/
def decodeReplaceBE : List Nat → List Char
  | [] => []
  | [_] => ['�']
  | b0 :: b1 :: rest =>
    let u := b0 * 256 + b1
    if u < 0xD800 ∨ 0xE000 ≤ u then
      Char.ofNat u :: decodeReplaceBE rest
    else if u < 0xDC00 then
      match rest with
      | b2 :: b3 :: rest2 =>
        let u2 := b2 * 256 + b3
        if 0xDC00 ≤ u2 ∧ u2 < 0xE000 then
          Char.ofNat (surrPairVal u u2) :: decodeReplaceBE rest2
        else '�' :: decodeReplaceBE (b2 :: b3 :: rest2)
      | _ => ['�']
    else '�' :: decodeReplaceBE rest
termination_by l => l.length
decreasing_by all_goals simp_arith

/-- The lowercase hex digit of a value below 16, as produced by hexlify. -/
def hexDigitLower (n : Nat) : Char := "0123456789abcdef".data.getD n '0'

/-- Model of binascii.hexlify on a byte list (lowercase output). -/
def hexlify : List Nat → List Char
  | [] => []
  | b :: bs => hexDigitLower (b / 16) :: hexDigitLower (b % 16) :: hexlify bs

/-- Model of str.upper restricted to ASCII, as applied to hex output. -/
def pyUpperChar (c : Char) : Char :=
  if 'a' ≤ c ∧ c ≤ 'z' then Char.ofNat (c.toNat - 32) else c

/-- Uppercase a character list. -/
def pyUpper (l : List Char) : List Char := l.map pyUpperChar

/-- Numeric value of a hex digit character, lowercase tried first. -/
def hexVal (c : Char) : Option Nat :=
  if c.isDigit then some (c.toNat - 48)
  else if 'a' ≤ c && c ≤ 'f' then some (c.toNat - 87)
  else if 'A' ≤ c && c ≤ 'F' then some (c.toNat - 55)
  else none

/-- Model of binascii.unhexlify; the error cases model its raised exceptions. -/
def unhexlifyE : List Char → Except String (List Nat)
  | [] => .ok []
  | [_] => .error "Odd-length string"
  | c1 :: c2 :: rest =>
    match hexVal c1, hexVal c2 with
    | some a, some b =>
      match unhexlifyE rest with
      | .ok bs => .ok ((16 * a + b) :: bs)
      | .error e => .error e
    | _, _ => .error "Non-hexadecimal digit found"

/-- Membership in the character set accepted as hex by sms_utils.py. -/
def isHexChar (c : Char) : Bool := "0123456789ABCDEFabcdef".data.contains c

/-- Membership in the uppercase hex character set tested by the phone branch. -/
def isUpperHexChar (c : Char) : Bool := "0123456789ABCDEF".data.contains c

/-! ## sms_utils.py -/

/-- Model of str.isdigit on a character list. -/
def pyIsDigit (l : List Char) : Bool := !l.isEmpty && l.all Char.isDigit

/-- Hex decode with full utf-16be decoding; the error models the exceptions
raised by unhexlify or by a strict decode. -/
def decodeHexFull (le : Bool) (h : List Char) : Except String String :=
  match unhexlifyE h with
  | .error e => .error e
  | .ok bs =>
    match utf16Decode le bs with
    | some l => .ok ⟨l⟩
    | none => .error "UnicodeDecodeError"

/-- The chunk-by-chunk fallback loop of ucs2_to_text: each four-hex-digit
chunk is decoded as one utf-16be unit with errors ignored; chunks that fail
to unhexlify are skipped by the inner bare except of the source. -/
def ucs2ChunkLoop : List Char → List Char
  | c1 :: c2 :: c3 :: c4 :: rest =>
    (match unhexlifyE [c1, c2, c3, c4] with
     | .ok [b0, b1] => decodeIgnore2 b0 b1
     | .ok _ => []
     | .error _ => []) ++ ucs2ChunkLoop rest
  | _ => []

/-- The direct phone-number extraction loop used when a 002B-prefixed hex
string fails to decode. -/
def ucs2Phone : List Char → List Char
  | c1 :: c2 :: c3 :: c4 :: rest =>
    (if [c1, c2, c3, c4] = "002B".data then ['+']
     else if listHasPre "00".data [c1, c2, c3, c4] ∧ pyIsDigit [c3, c4] then [c3, c4]
     else []) ++ ucs2Phone rest
  | _ => []

/-- Steps of ucs2_to_text after the phone-number branch: standard utf-16be
decode, then utf-16le, then the chunk loop.  The result is the value the
function returns; `.ok none` models falling off the end of the source
function (returning None), which happens when the chunk loop yields an
empty result.  The except branch of the chunk section (which would return
a bracketed Hex placeholder) is unreachable, because every fallible
operation of the loop sits under an inner bare except. -/
def ucs2Tail (h : List Char) : Except String (Option String) :=
  match decodeHexFull false h with
  | .ok t => .ok (some t)
  | .error _ =>
    match decodeHexFull true h with
    | .ok t => .ok (some t)
    | .error _ =>
      if ucs2ChunkLoop h ≠ [] then .ok (some ⟨ucs2ChunkLoop h⟩) else .ok none

/-- The space-removal step of ucs2_to_text. -/
def ucs2Stripped (s : String) : List Char := s.data.filter (fun c => c != ' ')

/-- The odd-length zero-padding step of ucs2_to_text. -/
def ucs2Padded (h1 : List Char) : List Char :=
  if h1.length % 2 ≠ 0 then h1 ++ ['0'] else h1

/-- The phone-number branch of ucs2_to_text followed by the decode chain. -/
def ucs2AfterPad (h2 : List Char) : Except String (Option String) :=
  if listHasPre "002B".data h2 ∨ h2.all isUpperHexChar then
    if listHasPre "002B".data h2 then
      match decodeHexFull false h2 with
      | .ok t => .ok (some t)
      | .error _ =>
        if ucs2Phone h2 ≠ [] then .ok (some ⟨ucs2Phone h2⟩) else ucs2Tail h2
    else ucs2Tail h2
  else ucs2Tail h2

/-- Body of ucs2_to_text (the outermost try block of the source).  The
result `.ok none` models a plain return of None; `.error` would model an
exception escaping the body, which the outermost except would turn into a
bracketed decode-error placeholder. -/
def ucs2Body (s : String) : Except String (Option String) :=
  if ! (ucs2Stripped s).all isHexChar then .ok (some ⟨ucs2Stripped s⟩)
  else ucs2AfterPad (ucs2Padded (ucs2Stripped s))

/-- Model of sms_utils.ucs2_to_text.  `none` is the Python value None. -/
def ucs2_to_text (s : String) : Option String :=
  match ucs2Body s with
  | .ok r => r
  | .error _ => some ("[Decode error: " ++ ⟨(ucs2Stripped s).take 30⟩ ++ "...]")

/-- Model of sms_utils.text_to_ucs2.  On surrogate-free text the utf-16be
encode of the source cannot raise, so the except branch returning None is
unreachable and the result is always a hex string. -/
def text_to_ucs2 (t : String) : String :=
  ⟨pyUpper (hexlify (utf16Encode t.data))⟩

/-! ## Regular-expression models for the patterns of lte_manager.py -/

/-- Try the pattern of a CLIP line at one position: a literal head, then one
or more non-quote characters captured, then a closing quote. -/
def clipAt (l : List Char) : Option String :=
  if listHasPre "+CLIP: \"".data l then
    let rest := l.drop 8
    let cap := rest.takeWhile (fun c => c != '"')
    if cap ≠ [] ∧ listHasPre ['"'] (rest.drop cap.length) then some ⟨cap⟩ else none
  else none

/-- Model of re.search over the CLIP pattern. -/
def clipMatch (line : String) : Option String := scanFirst clipAt line.data

/-- Try the CMT header pattern at one position: sender capture in quotes, an
unquoted comma-free middle field, then the quoted timestamp capture. -/
def cmtAt (l : List Char) : Option (String × String) :=
  if listHasPre "+CMT: \"".data l then
    let r1 := l.drop 7
    let s1 := r1.takeWhile (fun c => c != '"')
    match r1.drop s1.length with
    | '"' :: ',' :: r3 =>
      let mid := r3.takeWhile (fun c => c != ',')
      match r3.drop mid.length with
      | ',' :: '"' :: r5 =>
        let s2 := r5.takeWhile (fun c => c != '"')
        match r5.drop s2.length with
        | '"' :: _ => some (⟨s1⟩, ⟨s2⟩)
        | _ => none
      | _ => none
    | _ => none
  else none

/-- Model of re.search over the CMT header pattern. -/
def cmtMatch (line : String) : Option (String × String) := scanFirst cmtAt line.data

/-- Try the voice-call-end duration pattern at one position. -/
def durAt (l : List Char) : Option String :=
  if listHasPre "VOICE CALL: END: ".data l then
    let digits := (l.drop 17).takeWhile Char.isDigit
    if digits ≠ [] then some ⟨digits⟩ else none
  else none

/-- Model of re.search over the voice-call-end duration pattern. -/
def durMatch (line : String) : Option String := scanFirst durAt line.data

/-- Try the missed-call info pattern at one position. -/
def missedAt (l : List Char) : Option String :=
  if listHasPre "MISSED_CALL: ".data l then
    let cap := (l.drop 13).takeWhile (fun c => c != '\r' && c != '\n')
    if cap ≠ [] then some ⟨cap⟩ else none
  else none

/-- Model of re.search over the missed-call pattern. -/
def missedMatch (line : String) : Option String := scanFirst missedAt line.data

/-- Try the CMTI pattern at one position: quoted storage then an index. -/
def cmtiAt (l : List Char) : Option (String × String) :=
  if listHasPre "+CMTI: \"".data l then
    let rest := l.drop 8
    let storage := rest.takeWhile (fun c => c != '"')
    if storage ≠ [] then
      match rest.drop storage.length with
      | '"' :: ',' :: r3 =>
        let digits := r3.takeWhile Char.isDigit
        if digits ≠ [] then some (⟨storage⟩, ⟨digits⟩) else none
      | _ => none
    else none
  else none

/-- Model of re.search over the CMTI pattern. -/
def cmtiMatch (line : String) : Option (String × String) := scanFirst cmtiAt line.data

/-- Try the DTMF pattern at one position: a single captured digit. -/
def dtmfAt (l : List Char) : Option String :=
  if listHasPre "+RXDTMF: ".data l then
    match l.drop 9 with
    | d :: _ => if d.isDigit then some ⟨[d]⟩ else none
    | [] => none
  else none

/-- Model of re.search over the DTMF pattern. -/
def dtmfMatch (line : String) : Option String := scanFirst dtmfAt line.data

/-- Try a URL pattern at one position, for the given scheme literal. -/
def urlSchemeAt (scheme : List Char) (l : List Char) : Option String :=
  if listHasPre scheme l then
    let body := (l.drop scheme.length).takeWhile (fun c => !isSpaceChar c)
    if body ≠ [] then some ⟨scheme ++ body⟩ else none
  else none

/-- Try the plain URL pattern at one position (https preferred over http). -/
def urlAt (l : List Char) : Option String :=
  match urlSchemeAt "https://".data l with
  | some r => some r
  | none => urlSchemeAt "http://".data l

/-- Model of re.search over the plain URL pattern. -/
def urlMatch (s : String) : Option String := scanFirst urlAt s.data

/-- Try the colon-led URL pattern at one position. -/
def colonUrlAt (l : List Char) : Option String :=
  match l with
  | ':' :: rest => urlAt rest
  | _ => none

/-- Model of re.search over the colon-led URL pattern. -/
def colonUrlMatch (s : String) : Option String := scanFirst colonUrlAt s.data

/-- Model of re.match over the leading prefix pattern (one or more
non-colon characters followed by a colon, anchored at the start). -/
def msgPrefixMatch (s : String) : Option String :=
  let cap := s.data.takeWhile (fun c => c != ':')
  if cap ≠ [] ∧ listHasPre [':'] (s.data.drop cap.length) then some ⟨cap⟩ else none

/-! ## Modem engine state and events (lte_manager.py) -/

/-- One record of the concat_sms_parts dictionary. -/
structure SmsRecord where
  sender : String
  timestamp : String
  parts : List String
  urls : List String
  receivedTime : Nat
  msgPre : String
  isProcessed : Bool
deriving Repr, DecidableEq

/-- Outward-visible effects of the engine: Qt signal emissions, the
scheduled merge timers, and the deferred fetch of indexed SMS. -/
inductive Emission where
  | statusChanged (s : String)
  | callReceived (number : String)
  | callEnded (s : String)
  | smsReceived (sender timestamp message : String)
  | dtmfReceived (tone : String)
  | pcmAudioStatus (active : Bool)
  | fetchSms (storage index : String)
  | scheduleMerge (tenthsOfSecond : Nat) (smsId : String)
deriving Repr, DecidableEq

/-- The mutable fields of LTEManager read or written by the unsolicited
dispatcher, plus two oracle fields: `now` models time.time() in
milliseconds and `devOk` tells whether direct serial commands written by
the PCM register/unregister helpers are answered with OK. -/
structure LteState where
  connected : Bool
  inCall : Bool
  callConnected : Bool
  callNotificationSent : Bool
  callNumber : Option String
  waitingForSmsContent : Bool
  pendingSmsSender : Option String
  pendingSmsTimestamp : Option String
  currentSmsId : Option String
  currentIsContinuation : Option Bool
  concatSmsParts : List (String × SmsRecord)
  now : Nat
  nowStr : String
  devOk : Bool
deriving Repr, DecidableEq

/-- The state right after __init__. -/
def initialState : LteState where
  connected := false
  inCall := false
  callConnected := false
  callNotificationSent := false
  callNumber := none
  waitingForSmsContent := false
  pendingSmsSender := none
  pendingSmsTimestamp := none
  currentSmsId := none
  currentIsContinuation := none
  concatSmsParts := []
  now := 0
  nowStr := "25/01/01,00:00:00"
  devOk := true

/-- A state like the initial one but connected, as after a successful
connect call. -/
def connectedState : LteState := { initialState with connected := true }

/-- Model of _register_pcm_audio: the emissions and the returned Bool.
The serial handle presence check is folded into `connected`. -/
def registerPcmAudio (st : LteState) : List Emission × Bool :=
  if ! st.connected then ([], false)
  else if ! st.inCall then
    ([.statusChanged "Not in call, PCM audio registration skipped"], false)
  else
    ((if st.devOk then [Emission.statusChanged "PCM audio registered successfully"]
      else [Emission.statusChanged "PCM audio registration sent"])
      ++ [Emission.pcmAudioStatus true], true)

/-- Model of _unregister_pcm_audio: the emissions and the returned Bool.
The stop signal is emitted on every path. -/
def unregisterPcmAudio (st : LteState) : List Emission × Bool :=
  if ! st.connected then ([Emission.pcmAudioStatus false], false)
  else
    ((if st.devOk then [Emission.statusChanged "PCM audio unregistered successfully"]
      else [Emission.statusChanged "PCM audio unregistration sent"])
      ++ [Emission.pcmAudioStatus false], true)

/-- Model of _ensure_pcm_audio_unregistered: forces in_call to false and
then unregisters. -/
def ensurePcmUnregistered (st : LteState) : LteState × List Emission × Bool :=
  let st1 := { st with inCall := false }
  let (ems, ok) := unregisterPcmAudio st1
  (st1, ems, ok)

/-! ## SMS pipeline (lte_manager.py) -/

/-- Truthiness of an optional string, as tested by the source with a bare
if: None and the empty string are falsy. -/
def optTruthy : Option String → Bool
  | none => false
  | some s => !s.data.isEmpty

/-- The hex fingerprint treated by the source as a long-message marker. -/
def specialMarker : String := "62117ED94F6053D14E86957F6587672C"

/-- Model of `s.strip(q)` for the double-quote character. -/
def stripQuotes (s : String) : String :=
  ⟨((s.data.dropWhile (fun c => c == '"')).reverse.dropWhile (fun c => c == '"')).reverse⟩

/-- Lookup in the concat_sms_parts dictionary. -/
def dictGet (k : String) (d : List (String × SmsRecord)) : Option SmsRecord :=
  (d.find? (fun p => p.1 == k)).map (fun p => p.2)

/-- Update or insert in the concat_sms_parts dictionary; the association
list is kept with the newest binding first, which is observationally the
same as the dict assignment of the source for every lookup. -/
def dictSet (k : String) (v : SmsRecord) (d : List (String × SmsRecord)) :
    List (String × SmsRecord) :=
  (k, v) :: d.filter (fun p => p.1 != k)

/-- Model of _process_long_message_part: updates the concat buffer and
schedules a merge check; nothing is emitted immediately on the normal
path (the merge itself runs later on a timer thread, modelled by the
scheduleMerge emission). -/
def reDecodeIfFalsy (decoded0 : Option String) (content : String) : Option String :=
  if optTruthy decoded0 then decoded0 else ucs2_to_text content

def processLongMessagePart (st : LteState) (sender timestamp content0 : String)
    (decoded0 : Option String) (smsId : String) : LteState × List Emission :=
  let content : String := ⟨content0.data.filter (fun c => c != ' ')⟩
  let isSpecial := strContains content specialMarker
  let decoded := reDecodeIfFalsy decoded0 content
  let url1 : Option String :=
    if isSpecial ∧ optTruthy decoded then colonUrlMatch (decoded.getD "") else none
  let url : Option String :=
    if url1 = none ∧ optTruthy decoded then urlMatch (decoded.getD "") else url1
  let rc0 :=
    match dictGet smsId st.concatSmsParts with
    | some r => r
    | none =>
      let p :=
        if optTruthy decoded ∧ strContains (decoded.getD "") ":" then
          match msgPrefixMatch (decoded.getD "") with
          | some m => pyTrim m
          | none => "消息"
        else "消息"
      ⟨sender, timestamp, [], [], st.now, p, false⟩
  let rc1 :=
    if optTruthy decoded ∧ decoded.getD "" ∉ rc0.parts then
      { rc0 with parts := rc0.parts ++ [decoded.getD ""] }
    else rc0
  let rc2 :=
    match url with
    | some u => if u ∉ rc1.urls then { rc1 with urls := rc1.urls ++ [u] } else rc1
    | none => rc1
  let rc3 := { rc2 with receivedTime := st.now }
  let delay := if rc3.parts.length > 1 then 15 else 30
  ({ st with concatSmsParts := dictSet smsId rc3 st.concatSmsParts },
   [.scheduleMerge delay smsId])

/-- Model of _is_concatenated_sms: six or more comma fields. -/
def isConcatenatedSms (line : String) : Bool := (pySplit ',' line).length ≥ 6

/-- Model of _handle_regular_sms.  When the UCS2 decode of a sender
returns None the source keeps the Python value None, which later renders
as the string None; that rendering is folded in here. -/
def handleRegularSms (st : LteState) (line : String) : LteState × List Emission :=
  match cmtMatch line with
  | some (sender0, ts) =>
    let sender := if strStartsWith sender0 "00" then (ucs2_to_text sender0).getD "None"
                  else sender0
    ({ st with pendingSmsSender := some sender, pendingSmsTimestamp := some ts,
               waitingForSmsContent := true },
     [.statusChanged ("收到来自 " ++ sender ++ " 的短信")])
  | none =>
    ({ st with pendingSmsSender := some "未知号码", pendingSmsTimestamp := some st.nowStr,
               waitingForSmsContent := true },
     [.statusChanged "收到短信（无法识别发送者）"])

/-- Model of _handle_concatenated_sms. -/
def handleConcatenatedSms (st : LteState) (line : String) : LteState × List Emission :=
  let parts := pySplit ',' line
  if parts.length < 3 then handleRegularSms st line
  else
    let senderPart0 := stripQuotes (pyReplace (parts.getD 0 "") "+CMT: " "")
    let tsPart := stripQuotes (parts.getD 2 "")
    let senderPart := if strStartsWith senderPart0 "00" then
                        (ucs2_to_text senderPart0).getD "None"
                      else senderPart0
    ({ st with pendingSmsSender := some senderPart, pendingSmsTimestamp := some tsPart,
               waitingForSmsContent := true },
     [.statusChanged ("收到来自 " ++ senderPart ++ " 的长短信部分")])

/-- The +CMT: header branch of _process_unsolicited. -/
def smsHeaderStep (st : LteState) (line : String) : LteState × List Emission :=
  match cmtMatch line with
  | some (sender0, ts) =>
    let sender := if strStartsWith sender0 "00" then (ucs2_to_text sender0).getD "None"
                  else sender0
    let smsId := sender ++ "_" ++ ⟨ts.data.take 10⟩
    let isCont := (dictGet smsId st.concatSmsParts).isSome
    ({ st with waitingForSmsContent := true,
               currentSmsId := some smsId,
               currentIsContinuation := some isCont,
               pendingSmsSender := some sender,
               pendingSmsTimestamp := some ts },
     if isCont then [.statusChanged ("检测到后续短信部分，来自 " ++ sender)] else [])
  | none =>
    if isConcatenatedSms line then handleConcatenatedSms st line
    else handleRegularSms st line

/-- The decode chain of the content branch: the primary UCS2 decode, and
on a falsy result the replace-mode fallback decode of the raw bytes (the
source reaches it through the except around the logging slice of None). -/
def contentDecode (line : String) : Option String :=
  match ucs2_to_text line with
  | some d => some d
  | none =>
    match unhexlifyE (line.data.filter (fun c => c != ' ')) with
    | .ok bs => some ⟨decodeReplaceBE bs⟩
    | .error _ => none

/-- The waiting-for-content branch of _process_unsolicited. -/
def smsContentStep (st : LteState) (line : String) : LteState × List Emission :=
  let smsId := st.currentSmsId
  let isCont := (st.currentIsContinuation).getD false
  let st1 := { st with waitingForSmsContent := false,
                       currentSmsId := none, currentIsContinuation := none }
  let sender := st.pendingSmsSender.getD "None"
  let ts := st.pendingSmsTimestamp.getD "None"
  let result :=
    if (line.data.filter (fun c => c != ' ')).all isHexChar then
      let decoded : Option String := contentDecode line
      let isLong := strContains line specialMarker
        || (optTruthy decoded && strContains (decoded.getD "") "https://")
      if isLong ∨ isCont then
        processLongMessagePart st1 sender ts line decoded (smsId.getD "None")
      else
        (st1, [.smsReceived sender ts (if optTruthy decoded then decoded.getD "" else line)])
    else
      (st1, [.smsReceived sender ts line])
  ({ result.1 with pendingSmsSender := none, pendingSmsTimestamp := none }, result.2)

/-! ## Unsolicited dispatcher (lte_manager.py _process_unsolicited) -/

/-- The first filter of _process_unsolicited: command echoes and common
query responses are never treated as unsolicited. -/
def isIgnoredLine (line : String) : Bool :=
  strStartsWith line "AT" || line == "OK" || line == "ERROR" ||
  strStartsWith line "+CSQ" || strStartsWith line "+CREG" || strStartsWith line "+CGREG"

/-- Model of _process_unsolicited: one incoming line against the current
state, producing the next state and the emissions, in order. -/
def processUnsolicited (st : LteState) (line : String) : LteState × List Emission :=
  if isIgnoredLine line then (st, [])
  else if strStartsWith line "RING" then
    ({ st with inCall := true, callConnected := false, callNotificationSent := false },
     [.statusChanged "Incoming call"])
  else if strContains line "+CLIP:" then
    match clipMatch line with
    | some number =>
      if ¬ st.callNotificationSent ∧ st.inCall then
        ({ st with callNumber := some number, callNotificationSent := true },
         [.callReceived number])
      else ({ st with callNumber := some number }, [])
    | none => (st, [])
  else if strContains line "NO CARRIER" then
    let st1 := { st with inCall := false, callConnected := false,
                         callNotificationSent := false }
    let r := ensurePcmUnregistered st1
    (r.1, [.statusChanged "Call ended"] ++ r.2.1 ++ [.callEnded "Call ended"])
  else if strContains line "VOICE CALL: BEGIN" then
    let st1 := { st with inCall := true, callConnected := true }
    let emsU := (unregisterPcmAudio st1).1
    let emsR := (registerPcmAudio st1).1
    (st1, [.statusChanged "Call in progress"] ++ emsU ++ emsR)
  else if strContains line "VOICE CALL: END:" then
    let st1 := { st with inCall := false, callConnected := false }
    let duration := (durMatch line).getD "0"
    let r := ensurePcmUnregistered st1
    (r.1, r.2.1 ++ [.callEnded duration])
  else if strContains line "MISSED_CALL:" then
    match missedMatch line with
    | some info =>
      let partsWs := pySplitWs (pyTrim info)
      if partsWs.length ≥ 2 then
        let number := (partsWs.getLast?).getD ""
        ({ st with callNumber := some number },
         [.statusChanged ("Missed call: " ++ info), .callEnded "Missed",
          .statusChanged ("Missed call from " ++ number)])
      else (st, [.statusChanged ("Missed call: " ++ info)])
    | none => (st, [])
  else if strStartsWith line "+CMT:" then smsHeaderStep st line
  else if st.waitingForSmsContent then smsContentStep st line
  else if strStartsWith line "+CMTI:" then
    match cmtiMatch line with
    | some (storage, idx) =>
      (st, [.statusChanged ("New SMS at index " ++ idx), .fetchSms storage idx])
    | none => (st, [])
  else if strContains line "+RXDTMF:" then
    match dtmfMatch line with
    | some tone => (st, [.dtmfReceived tone])
    | none => (st, [])
  else if strContains line "+SMS FULL" then
    (st, [.statusChanged "SMS storage full. Please delete some messages."])
  else (st, [])

/-- Fold _process_unsolicited over a list of lines. -/
def processLines (st : LteState) : List String → LteState × List Emission
  | [] => (st, [])
  | l :: ls =>
    let r1 := processUnsolicited st l
    let r2 := processLines r1.1 ls
    (r2.1, r1.2 ++ r2.2)

/-! ## Line reader and response correlator (lte_manager.py) -/

/-- The per-line work of _read_thread: every complete stripped line is fed
to the dispatcher and is also put on the response queue; the third
component is the queue contents produced, in order. -/
def readThreadLines (st : LteState) : List String → LteState × List Emission × List String
  | [] => (st, [], [])
  | l :: ls =>
    let r1 := processUnsolicited st l
    let r2 := readThreadLines r1.1 ls
    (r2.1, r1.2 ++ r2.2.1, l :: r2.2.2)

/-- Split a character buffer at CRLF separators. -/
def crlfSplit : List Char → List (List Char)
  | [] => [[]]
  | '\r' :: '\n' :: rest => [] :: crlfSplit rest
  | a :: rest =>
    match crlfSplit rest with
    | [] => [[a]]
    | h :: t => (a :: h) :: t

/-- The buffer loop of _read_thread on one received chunk: complete lines
are stripped, empty ones skipped, the rest processed in arrival order;
the unterminated remainder stays in the buffer (fourth component). -/
def readThreadChunk (st : LteState) (buf : List Char) :
    LteState × List Emission × List String × List Char :=
  let pieces := crlfSplit buf
  let lines := (pieces.dropLast.map (fun l => pyTrim ⟨l⟩)).filter (fun s => s.data ≠ [])
  let r := readThreadLines st lines
  (r.1, r.2.1, r.2.2, pieces.getLastD [])

/-- The terminator test of _read_serial. -/
def isRespTerminator (line : String) : Bool :=
  line == "OK" || line == "ERROR" ||
  strContains line "+CMS ERROR:" || strContains line "+CME ERROR:"

/-- The accumulation loop of _read_serial over the queued lines: the first
line starting with AT is skipped as the command echo, every other line is
appended, and the loop stops after appending a terminator line.  When the
queue runs out the source waits for the timeout and then joins whatever
accumulated, which yields the same join. -/
def readSerialGo : List String → Bool → List String → List String
  | [], _, acc => acc
  | l :: rest, echoSeen, acc =>
    if ¬ echoSeen ∧ strStartsWith l "AT" then readSerialGo rest true acc
    else
      let acc2 := acc ++ [l]
      if isRespTerminator l then acc2
      else readSerialGo rest echoSeen acc2

/-- Model of _read_serial on the line queue available within the timeout. -/
def readSerial (queued : List String) : String :=
  let resp := readSerialGo queued false []
  if resp = [] then "ERROR: Read timeout" else String.intercalate "\n" resp

/-! ## send_at_command (lte_manager.py) -/

/-- Result of one send_at_command call: returned text, resulting command
cache, number of writes performed on the transport, and whether the
connected flag was set by the AT success path. -/
structure SendOutcome where
  result : String
  cache : List (String × Nat × String)
  writes : Nat
  setConnected : Bool
deriving Repr, DecidableEq

/-- Lookup in the command cache (command text to cache time and text). -/
def cacheGet (cmd : String) (cache : List (String × Nat × String)) : Option (Nat × String) :=
  (cache.find? (fun p => p.1 == cmd)).map (fun p => p.2)

/-- Store in the command cache; newest binding first, observationally the
same as the dict assignment of the source for every lookup. -/
def cacheSet (cmd : String) (v : Nat × String) (cache : List (String × Nat × String)) :
    List (String × Nat × String) :=
  (cmd, v) :: cache.filter (fun p => p.1 != cmd)

/-- The retry loop of send_at_command.  `transport` gives the full text
that _read_serial returns for each attempt; the fuel is the remaining
retry budget.  Exceptions of the happy path are not modelled. -/
def sendLoop (serialOpen : Bool) (command : String) (transport : Nat → String) (now : Nat)
    (retriesTotal : Nat) :
    Nat → Nat → Nat → List (String × Nat × String) → SendOutcome
  | 0, _, writes, cache =>
    ⟨"ERROR: Max retries (" ++ toString retriesTotal ++ ") exceeded", cache, writes, false⟩
  | fuel + 1, attempt, writes, cache =>
    if ! serialOpen then ⟨"ERROR: Serial port not open", cache, writes, false⟩
    else
      let resp := transport attempt
      let writes1 := writes + 1
      if strContains resp "ERROR" then
        if strEndsWith command "=?" || strEndsWith command "?" then
          ⟨resp, cacheSet command (now, resp) cache, writes1, false⟩
        else if strContains resp "+CME ERROR:" || strContains resp "+CMS ERROR:" then
          ⟨resp, cacheSet command (now, resp) cache, writes1, false⟩
        else sendLoop serialOpen command transport now retriesTotal fuel (attempt + 1) writes1 cache
      else
        ⟨resp, cacheSet command (now, resp) cache, writes1,
         command == "AT" && strContains resp "OK"⟩

/-- Model of send_at_command.  The cache test uses the 500 ms TTL of the
source; `now` is the wall-clock of this call in milliseconds. -/
def sendAtCommand (serialOpen : Bool) (cache : List (String × Nat × String)) (now : Nat)
    (command : String) (useCache : Bool) (transport : Nat → String) (retries : Nat) :
    SendOutcome :=
  if useCache then
    match cacheGet command cache with
    | some (t, r) =>
      if now - t < 500 then ⟨r, cache, 0, false⟩
      else sendLoop serialOpen command transport now retries retries 0 0 cache
    | none => sendLoop serialOpen command transport now retries retries 0 0 cache
  else sendLoop serialOpen command transport now retries retries 0 0 cache

/-! ## end_call (lte_manager.py) -/

/-- One parsed +CLCC entry as produced by get_call_status. -/
structure ClccCall where
  cid : Nat
  dir : Nat
  stat : Int
  mode : Nat
  mpty : Nat
  number : String
deriving Repr, DecidableEq

/-- Oracle for one end_call run: the call list of the first status poll,
the text answered to the hangup command, and the call list a second poll
would report after the 0.5 s delay. -/
structure EndCallEnv where
  calls1 : List ClccCall
  hangupResp : String
  calls2 : List ClccCall
deriving Repr, DecidableEq

/-- Observable outcome of end_call: the returned Bool, the hangup command
issued, and how many call-status polls were performed. -/
structure EndCallOutcome where
  ok : Bool
  hangupCmd : String
  polls : Nat
deriving Repr, DecidableEq

/-- The success markers end_call accepts in a hangup response. -/
def hangupSuccessResp (resp : String) : Bool :=
  strContains resp "OK" || strContains resp "NO CARRIER" || strContains resp "VOICE CALL: END"

/-- Model of end_call: command selection by call state and the
verification logic.  Status emissions and the PCM unregister side effects
do not influence the outcome and are omitted here. -/
def end_call (connected : Bool) (env : EndCallEnv) : EndCallOutcome :=
  if ! connected then ⟨false, "", 0⟩
  else
    match env.calls1 with
    | [] =>
      if strContains env.hangupResp "OK" then ⟨true, "ATH", 1⟩ else ⟨false, "ATH", 1⟩
    | call :: _ =>
      if call.stat = 4 then
        if hangupSuccessResp env.hangupResp then ⟨true, "AT+CHUP", 1⟩
        else if strContains env.hangupResp "+CLCC:" && strContains env.hangupResp ",6," then
          ⟨true, "AT+CHUP", 1⟩
        else if env.calls2.isEmpty then ⟨true, "AT+CHUP", 2⟩
        else ⟨false, "AT+CHUP", 2⟩
      else
        if hangupSuccessResp env.hangupResp then ⟨true, "ATH", 1⟩
        else if env.calls2.isEmpty then ⟨true, "ATH", 2⟩
        else ⟨false, "ATH", 2⟩

/-! ## Emission classifiers used by the stated properties -/

/-- Test for an incoming-call emission. -/
def isCallReceivedEm : Emission → Bool
  | .callReceived _ => true
  | _ => false

/-- Test for a call-ended emission. -/
def isCallEndedEm : Emission → Bool
  | .callEnded _ => true
  | _ => false

/-- Test for a received-SMS emission. -/
def isSmsReceivedEm : Emission → Bool
  | .smsReceived _ _ _ => true
  | _ => false

/-- Test for a scheduled merge timer. -/
def isScheduleMergeEm : Emission → Bool
  | .scheduleMerge _ _ => true
  | _ => false

/-! ## Helper lemmas about the string primitives -/

theorem listHasPre_subset {p l : List Char} (h : listHasPre p l = true) :
    ∀ c, c ∈ p → c ∈ l := by
  induction p generalizing l with
  | nil => intro c hc; cases hc
  | cons a asr ih =>
    cases l with
    | nil => simp [listHasPre] at h
    | cons b bs =>
      simp only [listHasPre, Bool.and_eq_true, beq_iff_eq] at h
      intro c hc
      rcases List.mem_cons.mp hc with rfl | hc
      · exact h.1 ▸ List.mem_cons_self _ _
      · exact List.mem_cons_of_mem _ (ih h.2 c hc)

theorem listHasSub_subset {p l : List Char} (h : listHasSub p l = true) :
    ∀ c, c ∈ p → c ∈ l := by
  induction l with
  | nil => exact listHasPre_subset h
  | cons b bs ih =>
    simp only [listHasSub, Bool.or_eq_true] at h
    rcases h with h | h
    · exact listHasPre_subset h
    · intro c hc; exact List.mem_cons_of_mem _ (ih h c hc)

theorem listHasPre_append_self (p r : List Char) : listHasPre p (p ++ r) = true := by
  induction p with
  | nil => rfl
  | cons a asr ih => simp [listHasPre, ih]

theorem listHasSub_of_listHasPre {p l : List Char} (h : listHasPre p l = true) :
    listHasSub p l = true := by
  cases l with
  | nil => exact h
  | cons b bs => simp [listHasSub, h]

/-- Refute a substring test from one witness character. -/
theorem strContains_eq_false {s pat : String} (c : Char)
    (hc : c ∈ pat.data) (hs : c ∉ s.data) : strContains s pat = false := by
  cases h : strContains s pat with
  | false => rfl
  | true => exact absurd (listHasSub_subset h c hc) hs

/-- Refute a startswith test from one witness character. -/
theorem strStartsWith_eq_false {s pat : String} (c : Char)
    (hc : c ∈ pat.data) (hs : c ∉ s.data) : strStartsWith s pat = false := by
  cases h : strStartsWith s pat with
  | false => rfl
  | true => exact absurd (listHasPre_subset h c hc) hs

theorem utf16Decode_cons_bmp (le : Bool) (b0 b1 : Nat) (rest : List Nat)
    (hg : u16 le b0 b1 < 0xD800 ∨ 0xE000 ≤ u16 le b0 b1) :
    utf16Decode le (b0 :: b1 :: rest)
      = (utf16Decode le rest).map (fun l => Char.ofNat (u16 le b0 b1) :: l) := by
  match rest with
  | [] => rw [utf16Decode.eq_4 le b0 b1 [] (by intro _ _ _ h; cases h), if_pos hg]
  | [x] => rw [utf16Decode.eq_4 le b0 b1 [x] (by intro _ _ _ h; cases h), if_pos hg]
  | b2 :: b3 :: rest2 => rw [utf16Decode.eq_3, if_pos hg]

theorem utf16Decode_cons_sur (le : Bool) (b0 b1 b2 b3 : Nat) (rest2 : List Nat)
    (h1 : ¬(u16 le b0 b1 < 0xD800 ∨ 0xE000 ≤ u16 le b0 b1))
    (h2 : u16 le b0 b1 < 0xDC00)
    (h3 : 0xDC00 ≤ u16 le b2 b3 ∧ u16 le b2 b3 < 0xE000) :
    utf16Decode le (b0 :: b1 :: b2 :: b3 :: rest2)
      = (utf16Decode le rest2).map
          (fun l => Char.ofNat (surrPairVal (u16 le b0 b1) (u16 le b2 b3)) :: l) := by
  rw [utf16Decode.eq_3, if_neg h1, if_pos h2, if_pos h3]

/-! ## Round-trip lemmas for the UTF-16 and hex codecs -/

theorem char_valid_nat (c : Char) : c.toNat < 0xd800 ∨ (0xdfff < c.toNat ∧ c.toNat < 0x110000) :=
  c.valid

theorem utf16Encode_lt (l : List Char) : ∀ b ∈ utf16Encode l, b < 256 := by
  induction l with
  | nil => simp [utf16Encode]
  | cons c cs ih =>
    intro b hb
    have hv := char_valid_nat c
    simp only [utf16Encode] at hb
    rcases List.mem_append.mp hb with h | h
    · split at h
      · simp only [List.mem_cons, List.not_mem_nil, or_false] at h
        rcases h with rfl | rfl
        · omega
        · omega
      · have hlt : c.toNat < 0x110000 := by omega
        have hdiv : (c.toNat - 0x10000) / 0x400 < 0x400 := by omega
        simp only [List.mem_cons, List.not_mem_nil, or_false, surrHiUnit, surrLoUnit] at h
        rcases h with h | h | h | h <;> omega
    · exact ih b h

theorem utf16Decode_encode (l : List Char) :
    utf16Decode false (utf16Encode l) = some l := by
  induction l with
  | nil => rfl
  | cons c cs ih =>
    have hv := char_valid_nat c
    by_cases hbmp : c.toNat < 0x10000
    · have henc : utf16Encode (c :: cs)
          = c.toNat / 256 :: c.toNat % 256 :: utf16Encode cs := by
        simp [utf16Encode, hbmp]
      rw [henc]
      have hu : u16 false (c.toNat / 256) (c.toNat % 256) = c.toNat := by
        simp only [u16]; omega
      have hguard : u16 false (c.toNat / 256) (c.toNat % 256) < 0xD800
          ∨ 0xE000 ≤ u16 false (c.toNat / 256) (c.toNat % 256) := by
        rw [hu]; omega
      rw [utf16Decode_cons_bmp _ _ _ _ hguard, ih, hu, Char.ofNat_toNat]
      rfl
    · have hlt : c.toNat < 0x110000 := by omega
      have hdiv : (c.toNat - 0x10000) / 0x400 < 0x400 := by omega
      have hmod : (c.toNat - 0x10000) % 0x400 < 0x400 := by omega
      set n := c.toNat with hn
      set hi := surrHiUnit (n - 65536) with hhi
      set lo := surrLoUnit (n - 65536) with hlo
      have hhiv : hi = 55296 + (n - 65536) / 1024 := by rw [hhi]; rfl
      have hlov : lo = 56320 + (n - 65536) % 1024 := by rw [hlo]; rfl
      have henc : utf16Encode (c :: cs)
          = hi / 256 :: hi % 256 :: lo / 256 :: lo % 256 :: utf16Encode cs := by
        simp only [utf16Encode, if_neg hbmp]
        rfl
      rw [henc]
      have hu1 : u16 false (hi / 256) (hi % 256) = hi := by simp only [u16]; omega
      have hu2 : u16 false (lo / 256) (lo % 256) = lo := by simp only [u16]; omega
      have hg1 : ¬(u16 false (hi / 256) (hi % 256) < 0xD800
          ∨ 0xE000 ≤ u16 false (hi / 256) (hi % 256)) := by rw [hu1]; omega
      have hg2 : u16 false (hi / 256) (hi % 256) < 0xDC00 := by rw [hu1]; omega
      have hg3 : 0xDC00 ≤ u16 false (lo / 256) (lo % 256)
          ∧ u16 false (lo / 256) (lo % 256) < 0xE000 := by rw [hu2]; omega
      rw [utf16Decode_cons_sur _ _ _ _ _ _ hg1 hg2 hg3, ih, hu1, hu2]
      have hcp : surrPairVal hi lo = n := by
        simp only [surrPairVal]
        omega
      rw [hcp, hn, Char.ofNat_toNat]
      rfl

theorem hexVal_roundtrip : ∀ n < 16, hexVal (pyUpperChar (hexDigitLower n)) = some n := by
  decide

theorem unhexlify_pyUpper_hexlify (bs : List Nat) (hlt : ∀ b ∈ bs, b < 256) :
    unhexlifyE (pyUpper (hexlify bs)) = .ok bs := by
  induction bs with
  | nil => rfl
  | cons b bt ih =>
    have hb : b < 256 := hlt b (List.mem_cons_self _ _)
    have h1 : hexVal (pyUpperChar (hexDigitLower (b / 16))) = some (b / 16) :=
      hexVal_roundtrip _ (by omega)
    have h2 : hexVal (pyUpperChar (hexDigitLower (b % 16))) = some (b % 16) :=
      hexVal_roundtrip _ (by omega)
    have hbt : unhexlifyE (pyUpper (hexlify bt)) = .ok bt :=
      ih (fun x hx => hlt x (List.mem_cons_of_mem _ hx))
    simp only [hexlify, pyUpper, List.map_cons, unhexlifyE, h1, h2]
    simp only [pyUpper] at hbt
    rw [hbt]
    have : 16 * (b / 16) + b % 16 = b := by omega
    rw [this]

theorem hexDigit_isUpperHex (n : Nat) : isUpperHexChar (pyUpperChar (hexDigitLower n)) = true := by
  rcases Nat.lt_or_ge n 16 with h | h
  · revert h; revert n; decide
  · have : hexDigitLower n = '0' := by
      unfold hexDigitLower
      apply List.getD_eq_default
      simpa using h
    rw [this]; rfl

theorem isHexChar_of_upper {c : Char} (h : isUpperHexChar c = true) : isHexChar c = true := by
  have hm : c ∈ "0123456789ABCDEF".data := List.mem_of_elem_eq_true h
  fin_cases hm <;> rfl

theorem hexlify_length (bs : List Nat) : (hexlify bs).length = 2 * bs.length := by
  induction bs with
  | nil => rfl
  | cons b bt ih => simp [hexlify, ih]; omega

theorem hexlify_chars (bs : List Nat) : ∀ c ∈ hexlify bs, ∃ m, c = hexDigitLower m := by
  induction bs with
  | nil => simp [hexlify]
  | cons b bt ih =>
    intro c hc
    simp only [hexlify, List.mem_cons] at hc
    rcases hc with rfl | rfl | hc
    · exact ⟨b / 16, rfl⟩
    · exact ⟨b % 16, rfl⟩
    · exact ih c hc

theorem text_to_ucs2_upperHex (t : String) :
    ∀ c ∈ (text_to_ucs2 t).data, isUpperHexChar c = true := by
  intro c hc
  simp only [text_to_ucs2, pyUpper, List.mem_map] at hc
  obtain ⟨a, ha, rfl⟩ := hc
  obtain ⟨m, rfl⟩ := hexlify_chars _ a ha
  exact hexDigit_isUpperHex m

theorem listHasPre_iff {p l : List Char} : listHasPre p l = true ↔ ∃ t, l = p ++ t := by
  induction p generalizing l with
  | nil => simp [listHasPre]
  | cons a asr ih =>
    cases l with
    | nil => simp [listHasPre]
    | cons b bs =>
      simp only [listHasPre, Bool.and_eq_true, beq_iff_eq, ih, List.cons_append]
      constructor
      · rintro ⟨rfl, t, rfl⟩; exact ⟨t, rfl⟩
      · rintro ⟨t, ht⟩
        injection ht with h1 h2
        exact ⟨h1.symm, t, h2⟩

theorem listHasSub_iff {p l : List Char} : listHasSub p l = true ↔ ∃ s t, l = s ++ p ++ t := by
  induction l with
  | nil =>
    show listHasPre p [] = true ↔ _
    rw [listHasPre_iff]
    constructor
    · rintro ⟨t, ht⟩; exact ⟨[], t, by simpa using ht⟩
    · rintro ⟨s, t, ht⟩
      rcases List.append_eq_nil.mp (List.append_eq_nil.mp ht.symm).1 with ⟨rfl, rfl⟩
      exact ⟨t, by simpa using ht⟩
  | cons b bs ih =>
    simp only [listHasSub, Bool.or_eq_true, listHasPre_iff, ih]
    constructor
    · rintro (⟨t, ht⟩ | ⟨s, t, ht⟩)
      · exact ⟨[], t, by simpa using ht⟩
      · exact ⟨b :: s, t, by simp [ht]⟩
    · rintro ⟨s, t, ht⟩
      cases s with
      | nil => exact Or.inl ⟨t, by simpa using ht⟩
      | cons x xs =>
        injection ht with h1 h2
        exact Or.inr ⟨xs, t, h2⟩

theorem listHasSub_trans {a b l : List Char} (hab : listHasSub a b = true)
    (hbl : listHasSub b l = true) : listHasSub a l = true := by
  rw [listHasSub_iff] at hab hbl ⊢
  obtain ⟨s1, t1, rfl⟩ := hab
  obtain ⟨s2, t2, rfl⟩ := hbl
  exact ⟨s2 ++ s1, t1 ++ t2, by simp⟩

theorem strContains_trans {s a b : String} (h1 : strContains s a = true)
    (hba : strContains a b = true) : strContains s b = true :=
  listHasSub_trans hba h1

theorem cacheGet_cacheSet (cmd : String) (v : Nat × String)
    (cache : List (String × Nat × String)) :
    cacheGet cmd (cacheSet cmd v cache) = some v := by
  simp [cacheGet, cacheSet, List.find?]

/-! ## The UCS2 codec round trip and totality -/

theorem decodeHexFull_encode (t : String) :
    decodeHexFull false (pyUpper (hexlify (utf16Encode t.data))) = .ok t := by
  have h1 : unhexlifyE (pyUpper (hexlify (utf16Encode t.data)))
      = .ok (utf16Encode t.data) := unhexlify_pyUpper_hexlify _ (utf16Encode_lt t.data)
  have h2 : utf16Decode false (utf16Encode t.data) = some t.data := utf16Decode_encode t.data
  unfold decodeHexFull
  rw [h1]
  simp only [h2]

theorem ucs2AfterPad_text (t : String) :
    ucs2AfterPad (text_to_ucs2 t).data = .ok (some t) := by
  have hdec : decodeHexFull false (text_to_ucs2 t).data = .ok t := decodeHexFull_encode t
  have hupper : (text_to_ucs2 t).data.all isUpperHexChar = true :=
    List.all_eq_true.mpr (text_to_ucs2_upperHex t)
  have hcond : listHasPre "002B".data (text_to_ucs2 t).data = true
      ∨ (text_to_ucs2 t).data.all isUpperHexChar = true := Or.inr hupper
  unfold ucs2AfterPad
  rw [if_pos hcond]
  by_cases hP : listHasPre "002B".data (text_to_ucs2 t).data = true
  · rw [if_pos hP, hdec]
  · rw [if_neg hP]
    unfold ucs2Tail
    rw [hdec]

theorem ucs2Body_text (t : String) : ucs2Body (text_to_ucs2 t) = .ok (some t) := by
  have hhex : ∀ c ∈ (text_to_ucs2 t).data, isHexChar c = true :=
    fun c hc => isHexChar_of_upper (text_to_ucs2_upperHex t c hc)
  have hstrip : ucs2Stripped (text_to_ucs2 t) = (text_to_ucs2 t).data := by
    unfold ucs2Stripped
    apply List.filter_eq_self.mpr
    intro c hc
    have h := hhex c hc
    simp only [bne_iff_ne, ne_eq]
    intro hsp
    rw [hsp] at h
    exact absurd h (by decide)
  have hall : (text_to_ucs2 t).data.all isHexChar = true := List.all_eq_true.mpr hhex
  have hpad : ucs2Padded (text_to_ucs2 t).data = (text_to_ucs2 t).data := by
    unfold ucs2Padded
    have hlen : (text_to_ucs2 t).data.length % 2 = 0 := by
      show (pyUpper (hexlify (utf16Encode t.data))).length % 2 = 0
      simp only [pyUpper, List.length_map, hexlify_length]
      omega
    rw [if_neg (by omega)]
  unfold ucs2Body
  rw [hstrip, hall]
  simp only [Bool.not_true, Bool.false_eq_true, if_false, hpad]
  exact ucs2AfterPad_text t

theorem ucs2Tail_isOk (h : List Char) : ∃ r, ucs2Tail h = .ok r := by
  unfold ucs2Tail
  split
  · exact ⟨_, rfl⟩
  · split
    · exact ⟨_, rfl⟩
    · split
      · exact ⟨_, rfl⟩
      · exact ⟨_, rfl⟩

/-! ## Claim theorems -/

/-- C10: encode/decode round trip.  For every text t (in the model every
string is encodable as UTF-16BE, since Lean strings carry no lone
surrogates), decoding the hex string produced by text_to_ucs2 returns
exactly t. -/
theorem C10_ucs2_roundtrip (t : String) : ucs2_to_text (text_to_ucs2 t) = some t := by
  unfold ucs2_to_text
  rw [ucs2Body_text]

/-- C9 counterexample: ucs2_to_text does not always return a string.  On
the input 00 (a valid hex string of one byte) both full decodes fail, the
chunk loop produces nothing, and the source falls off the end of the
function, returning None rather than a string. -/
theorem C9_ucs2_none_counterexample : ucs2_to_text "00" = none := by rfl

/-- C9 amended: no exception ever escapes the body of ucs2_to_text (its
outermost except and the bracketed placeholder branches are unreachable),
but the result can be None rather than a string; callers treat the None
as falsy and fall back to the raw payload. -/
theorem C9_ucs2_no_exception (s : String) : ∃ r, ucs2Body s = .ok r := by
  unfold ucs2Body
  split
  · exact ⟨_, rfl⟩
  · unfold ucs2AfterPad
    split
    · split
      · split
        · exact ⟨_, rfl⟩
        · split
          · exact ⟨_, rfl⟩
          · exact ucs2Tail_isOk _
      · exact ucs2Tail_isOk _
    · exact ucs2Tail_isOk _

/-- C4: a response carrying a structured vendor error code is returned
immediately: send_at_command performs exactly one write and returns the
response text of the first attempt, not retrying. -/
theorem C4_cme_error_no_retry (cache : List (String × Nat × String)) (now : Nat)
    (command : String) (transport : Nat → String) (retries : Nat)
    (hr : 1 ≤ retries)
    (hcme : strContains (transport 0) "+CME ERROR:" = true) :
    (sendAtCommand true cache now command false transport retries).result = transport 0
    ∧ (sendAtCommand true cache now command false transport retries).writes = 1 := by
  obtain ⟨k, rfl⟩ : ∃ k, retries = k + 1 := ⟨retries - 1, by omega⟩
  have herr : strContains (transport 0) "ERROR" = true :=
    strContains_trans hcme (by decide)
  show (sendLoop true command transport now (k + 1) (k + 1) 0 0 cache).result = transport 0
    ∧ (sendLoop true command transport now (k + 1) (k + 1) 0 0 cache).writes = 1
  simp only [sendLoop, Bool.not_true, Bool.false_eq_true, if_false, herr, if_true]
  by_cases hq : (strEndsWith command "=?" || strEndsWith command "?") = true
  · rw [if_pos hq]
    exact ⟨rfl, rfl⟩
  · rw [if_neg hq, if_pos (by rw [hcme]; rfl : (strContains (transport 0) "+CME ERROR:"
      || strContains (transport 0) "+CMS ERROR:") = true)]
    exact ⟨rfl, rfl⟩

/-- C4 witness: scenario D of the specification at concrete inputs. -/
theorem C4_cme_error_no_retry_witness :
    (sendAtCommand true [] 0 "AT+BOGUS" false (fun _ => "+CME ERROR: 100") 2).result
        = "+CME ERROR: 100"
    ∧ (sendAtCommand true [] 0 "AT+BOGUS" false (fun _ => "+CME ERROR: 100") 2).writes = 1 :=
  C4_cme_error_no_retry [] 0 "AT+BOGUS" (fun _ => "+CME ERROR: 100") 2
    (by decide) (by decide)

/-- C8: two calls of the same cacheable query within the 500 ms TTL return
byte-identical text and only the first one writes to the transport. -/
theorem C8_cache_idempotent (cache : List (String × Nat × String)) (t1 t2 : Nat)
    (command : String) (transport transport2 : Nat → String) (retries : Nat)
    (hmiss : cacheGet command cache = none)
    (hr : 1 ≤ retries)
    (hok : strContains (transport 0) "ERROR" = false)
    (hfresh : t2 - t1 < 500) :
    (sendAtCommand true cache t1 command true transport retries).result = transport 0
    ∧ (sendAtCommand true cache t1 command true transport retries).writes = 1
    ∧ (sendAtCommand true
         (sendAtCommand true cache t1 command true transport retries).cache
         t2 command true transport2 retries).result = transport 0
    ∧ (sendAtCommand true
         (sendAtCommand true cache t1 command true transport retries).cache
         t2 command true transport2 retries).writes = 0 := by
  obtain ⟨k, rfl⟩ : ∃ k, retries = k + 1 := ⟨retries - 1, by omega⟩
  have h1 : sendAtCommand true cache t1 command true transport (k + 1)
      = ⟨transport 0, cacheSet command (t1, transport 0) cache, 1,
         command == "AT" && strContains (transport 0) "OK"⟩ := by
    unfold sendAtCommand
    rw [hmiss]
    simp only [sendLoop, Bool.not_true, Bool.false_eq_true, if_false, hok]
    simp
  have h2 : sendAtCommand true
      (sendAtCommand true cache t1 command true transport (k + 1)).cache
      t2 command true transport2 (k + 1)
      = ⟨transport 0, cacheSet command (t1, transport 0) cache, 0, false⟩ := by
    rw [h1]
    show sendAtCommand true (cacheSet command (t1, transport 0) cache)
        t2 command true transport2 (k + 1) = _
    unfold sendAtCommand
    simp only [cacheGet_cacheSet]
    simp [hfresh]
  rw [h2, h1]
  exact ⟨rfl, rfl, rfl, rfl⟩

/-- C6 counterexample: end_call declares success without confirming an
empty call list.  With one incoming (stat 4) call and a firmware that
answers OK to AT+CHUP, end_call returns True after a single status poll,
even though a re-poll would still report the call; the claimed confirming
re-poll never happens on this path. -/
theorem C6_end_call_counterexample :
    end_call true
      ⟨[⟨1, 1, 4, 0, 0, "13800000000"⟩], "OK", [⟨1, 1, 4, 0, 0, "13800000000"⟩]⟩
      = ⟨true, "AT+CHUP", 1⟩ := by rfl

/-- C6 amended: end_call issues AT+CHUP for a ringing (stat 4) call and
ATH otherwise; when the hangup response carries a success marker (OK, NO
CARRIER, VOICE CALL: END, or for AT+CHUP a CLCC line with state 6) it
returns True immediately with no verification re-poll; only when no
marker is present does it re-poll once and return True exactly when the
list is then empty. -/
theorem C6_end_call_amended (env : EndCallEnv) (c : ClccCall) (rest : List ClccCall)
    (hc : env.calls1 = c :: rest) :
    ((c.stat = 4 → (end_call true env).hangupCmd = "AT+CHUP")
      ∧ (c.stat ≠ 4 → (end_call true env).hangupCmd = "ATH"))
    ∧ (hangupSuccessResp env.hangupResp = true
        → (end_call true env).ok = true ∧ (end_call true env).polls = 1)
    ∧ (hangupSuccessResp env.hangupResp = false
        → ¬(c.stat = 4 ∧ strContains env.hangupResp "+CLCC:" = true
            ∧ strContains env.hangupResp ",6," = true)
        → (end_call true env).ok = env.calls2.isEmpty ∧ (end_call true env).polls = 2) := by
  have hgo : end_call true env
      = (if c.stat = 4 then
          if hangupSuccessResp env.hangupResp then ⟨true, "AT+CHUP", 1⟩
          else if strContains env.hangupResp "+CLCC:" && strContains env.hangupResp ",6," then
            ⟨true, "AT+CHUP", 1⟩
          else if env.calls2.isEmpty then ⟨true, "AT+CHUP", 2⟩
          else ⟨false, "AT+CHUP", 2⟩
        else
          if hangupSuccessResp env.hangupResp then ⟨true, "ATH", 1⟩
          else if env.calls2.isEmpty then ⟨true, "ATH", 2⟩
          else ⟨false, "ATH", 2⟩) := by
    unfold end_call
    rw [hc]
    rfl
  rw [hgo]
  by_cases h4 : c.stat = 4 <;> by_cases hm : hangupSuccessResp env.hangupResp = true
  · rw [if_pos h4, if_pos hm]
    refine ⟨⟨fun _ => rfl, fun h => absurd h4 h⟩, fun _ => ⟨rfl, rfl⟩, fun hf _ => ?_⟩
    rw [hm] at hf
    exact Bool.noConfusion hf
  · rw [if_pos h4, if_neg hm]
    refine ⟨⟨fun _ => ?_, fun h => absurd h4 h⟩, fun ht => absurd ht hm, fun _ hcl => ?_⟩
    · split
      · rfl
      · split <;> rfl
    · have hcl2 : (strContains env.hangupResp "+CLCC:"
          && strContains env.hangupResp ",6,") = false := by
        cases h1 : strContains env.hangupResp "+CLCC:"
        · rfl
        · cases h2 : strContains env.hangupResp ",6,"
          · rfl
          · exact absurd ⟨h4, h1, h2⟩ hcl
      rw [hcl2]
      simp only [Bool.false_eq_true, if_false]
      cases he : env.calls2.isEmpty <;> simp [he]
  · rw [if_neg h4, if_pos hm]
    exact ⟨⟨fun h => absurd h h4, fun _ => rfl⟩, fun _ => ⟨rfl, rfl⟩,
      fun hf => by rw [hm] at hf; exact Bool.noConfusion hf⟩
  · rw [if_neg h4, if_neg hm]
    refine ⟨⟨fun h => absurd h h4, fun _ => by split <;> rfl⟩,
      fun ht => absurd ht hm, fun _ _ => ?_⟩
    cases he : env.calls2.isEmpty <;> simp [he]

/-- One step of the accumulation loop once the echo is consumed. -/
theorem readSerialGo_step (l : String) (rest acc : List String) :
    readSerialGo (l :: rest) true acc
      = if isRespTerminator l then acc ++ [l] else readSerialGo rest true (acc ++ [l]) := by
  simp only [readSerialGo]
  rw [if_neg (by simp)]

/-- The loop appends all non-terminator lines and then the final OK. -/
theorem readSerialGo_payload (payload : List String) (acc : List String)
    (hterm : ∀ l ∈ payload, isRespTerminator l = false) :
    readSerialGo (payload ++ ["OK"]) true acc = acc ++ payload ++ ["OK"] := by
  induction payload generalizing acc with
  | nil =>
    rw [List.nil_append, readSerialGo_step]
    simp [isRespTerminator]
  | cons l ls ih =>
    rw [List.cons_append, readSerialGo_step, if_neg]
    · rw [ih (acc ++ [l]) (fun x hx => hterm x (List.mem_cons_of_mem _ hx))]
      simp
    · rw [hterm l (List.mem_cons_self _ _)]
      exact Bool.noConfusion

/-- The correlator on an echo line, payload lines and the OK terminator:
the echo is skipped and the rest, terminator included, is joined. -/
theorem readSerial_echo_payload (echo : String) (payload : List String)
    (hecho : strStartsWith echo "AT" = true)
    (hterm : ∀ l ∈ payload, isRespTerminator l = false) :
    readSerial (echo :: payload ++ ["OK"]) = String.intercalate "\n" (payload ++ ["OK"]) := by
  unfold readSerial
  have h1 : readSerialGo (echo :: payload ++ ["OK"]) false []
      = readSerialGo (payload ++ ["OK"]) true [] := by
    simp only [readSerialGo]
    rw [if_pos (⟨fun h => Bool.noConfusion h, hecho⟩
      : ¬(false = true) ∧ strStartsWith echo "AT" = true)]
    rfl
  rw [h1, readSerialGo_payload payload [] hterm, List.nil_append]
  rw [if_neg (by simp)]

/-- C2 counterexample: the terminating OK line is part of the returned
text.  For the echo, one payload line and OK, the correlator returns the
payload line joined with OK, not the payload line alone; indeed
send_at_command relies on finding OK inside the returned text. -/
theorem C2_terminator_included_counterexample :
    readSerial ["AT+CSQ", "+CSQ: 18,99", "OK"] = "+CSQ: 18,99\nOK"
    ∧ strContains (readSerial ["AT+CSQ", "+CSQ: 18,99", "OK"]) "OK" = true :=
  ⟨rfl, rfl⟩

/-- C2 amended: for every response sequence ending in the exact line OK,
the returned text excludes the command echo line but includes the
terminating OK line: it is exactly the payload lines joined with the
terminator. -/
theorem C2_readSerial_amended (echo : String) (payload : List String)
    (hecho : strStartsWith echo "AT" = true)
    (hterm : ∀ l ∈ payload, isRespTerminator l = false) :
    readSerial (echo :: payload ++ ["OK"]) = String.intercalate "\n" (payload ++ ["OK"]) :=
  readSerial_echo_payload echo payload hecho hterm

/-- C2 amended witness: scenario B of the specification. -/
theorem C2_readSerial_amended_witness :
    readSerial ["AT+CSQ", "+CSQ: 18,99", "OK"]
      = String.intercalate "\n" ["+CSQ: 18,99", "OK"] :=
  C2_readSerial_amended "AT+CSQ" ["+CSQ: 18,99"] (by decide) (by decide)

/-- The read thread enqueues every processed line. -/
theorem readThreadLines_queue (st : LteState) (lines : List String) :
    (readThreadLines st lines).2.2 = lines := by
  induction lines generalizing st with
  | nil => rfl
  | cons l ls ih => simp [readThreadLines, ih]

/-- The read thread runs the dispatcher on every line, in order. -/
theorem readThreadLines_dispatch (st : LteState) (lines : List String) :
    (readThreadLines st lines).1 = (processLines st lines).1
    ∧ (readThreadLines st lines).2.1 = (processLines st lines).2 := by
  induction lines generalizing st with
  | nil => exact ⟨rfl, rfl⟩
  | cons l ls ih =>
    have h := ih (processUnsolicited st l).1
    simp [readThreadLines, processLines, h.1, h.2]

/-- C1 counterexample: a RING line arriving while a command is
outstanding is routed to the dispatcher (the incoming-call status is
emitted) BUT is also placed on the response queue and therefore appears
inside the text the correlator returns, contradicting the claim that it
is not included in the payload. -/
theorem C1_unsolicited_in_payload_counterexample :
    readSerial (readThreadLines initialState ["AT+CSQ", "RING", "+CSQ: 18,99", "OK"]).2.2
      = "RING\n+CSQ: 18,99\nOK"
    ∧ (readThreadLines initialState ["AT+CSQ", "RING", "+CSQ: 18,99", "OK"]).2.1
      = [Emission.statusChanged "Incoming call"] :=
  ⟨rfl, rfl⟩

/-- C1 amended: every line that arrives while a command is outstanding is
passed to the unsolicited dispatcher AND put on the response queue, so a
recognized unsolicited line between the echo and the terminator is also
included in the command payload text returned by the correlator. -/
theorem C1_unsolicited_dual_routing (st : LteState) (echo u : String)
    (hecho : strStartsWith echo "AT" = true)
    (hterm : isRespTerminator u = false) :
    (readThreadLines st [echo, u, "OK"]).2.2 = [echo, u, "OK"]
    ∧ (readThreadLines st [echo, u, "OK"]).2.1 = (processLines st [echo, u, "OK"]).2
    ∧ readSerial (readThreadLines st [echo, u, "OK"]).2.2
        = String.intercalate "\n" [u, "OK"] := by
  refine ⟨readThreadLines_queue st _, (readThreadLines_dispatch st _).2, ?_⟩
  rw [readThreadLines_queue]
  exact readSerial_echo_payload echo [u] hecho
    (by intro l hl; rw [List.mem_singleton] at hl; subst hl; exact hterm)

/-- C1 amended witness: the RING line at concrete inputs; the dispatcher
runs on it (the incoming-call status is emitted in the second component)
and it still lands in the returned payload. -/
theorem C1_unsolicited_dual_routing_witness :
    (readThreadLines initialState ["AT+CSQ", "RING", "OK"]).2.2 = ["AT+CSQ", "RING", "OK"]
    ∧ (readThreadLines initialState ["AT+CSQ", "RING", "OK"]).2.1
        = (processLines initialState ["AT+CSQ", "RING", "OK"]).2
    ∧ readSerial (readThreadLines initialState ["AT+CSQ", "RING", "OK"]).2.2
        = String.intercalate "\n" ["RING", "OK"] :=
  C1_unsolicited_dual_routing initialState "AT+CSQ" "RING" (by decide) (by decide)

/-- C6 amended witness: a connected call in talking state (stat 0) whose
hangup gets no success marker, followed by an empty re-poll. -/
theorem C6_end_call_amended_witness :
    ((((0 : Int) = 4 → (end_call true ⟨[⟨1, 0, 0, 0, 0, "10086"⟩], "x", []⟩).hangupCmd
        = "AT+CHUP")
      ∧ ((0 : Int) ≠ 4 → (end_call true ⟨[⟨1, 0, 0, 0, 0, "10086"⟩], "x", []⟩).hangupCmd
        = "ATH"))
    ∧ (hangupSuccessResp "x" = true
        → (end_call true ⟨[⟨1, 0, 0, 0, 0, "10086"⟩], "x", []⟩).ok = true
          ∧ (end_call true ⟨[⟨1, 0, 0, 0, 0, "10086"⟩], "x", []⟩).polls = 1)
    ∧ (hangupSuccessResp "x" = false
        → ¬((0 : Int) = 4 ∧ strContains "x" "+CLCC:" = true ∧ strContains "x" ",6," = true)
        → (end_call true ⟨[⟨1, 0, 0, 0, 0, "10086"⟩], "x", []⟩).ok
            = ([] : List ClccCall).isEmpty
          ∧ (end_call true ⟨[⟨1, 0, 0, 0, 0, "10086"⟩], "x", []⟩).polls = 2)) :=
  C6_end_call_amended ⟨[⟨1, 0, 0, 0, 0, "10086"⟩], "x", []⟩ ⟨1, 0, 0, 0, 0, "10086"⟩ [] rfl

/-- C8 witness: a carrier query cached for 100 ms at concrete inputs. -/
theorem C8_cache_idempotent_witness :
    (sendAtCommand true [] 0 "AT+COPS?" true (fun _ => "+COPS: 0,0\nOK") 2).result
        = "+COPS: 0,0\nOK"
    ∧ (sendAtCommand true [] 0 "AT+COPS?" true (fun _ => "+COPS: 0,0\nOK") 2).writes = 1
    ∧ (sendAtCommand true
         (sendAtCommand true [] 0 "AT+COPS?" true (fun _ => "+COPS: 0,0\nOK") 2).cache
         100 "AT+COPS?" true (fun _ => "UNUSED") 2).result = "+COPS: 0,0\nOK"
    ∧ (sendAtCommand true
         (sendAtCommand true [] 0 "AT+COPS?" true (fun _ => "+COPS: 0,0\nOK") 2).cache
         100 "AT+COPS?" true (fun _ => "UNUSED") 2).writes = 0 :=
  C8_cache_idempotent [] 0 100 "AT+COPS?" (fun _ => "+COPS: 0,0\nOK") (fun _ => "UNUSED") 2
    (by decide) (by decide) (by decide) (by decide)


/-! ## Dispatcher step lemmas -/

theorem processUnsolicited_ignored (st : LteState) (l : String)
    (hl : isIgnoredLine l = true) : processUnsolicited st l = (st, []) := by
  unfold processUnsolicited
  rw [if_pos hl]

theorem processLines_ignored (st : LteState) (mid : List String)
    (hmid : ∀ l ∈ mid, isIgnoredLine l = true) : processLines st mid = (st, []) := by
  induction mid with
  | nil => rfl
  | cons l ls ih =>
    simp only [processLines,
      processUnsolicited_ignored st l (hmid l (List.mem_cons_self _ _)),
      ih (fun x hx => hmid x (List.mem_cons_of_mem _ hx))]
    rfl

theorem processLines_append (st : LteState) (xs ys : List String) :
    processLines st (xs ++ ys)
      = ((processLines (processLines st xs).1 ys).1,
         (processLines st xs).2 ++ (processLines (processLines st xs).1 ys).2) := by
  induction xs generalizing st with
  | nil => simp [processLines]
  | cons x xt ih =>
    simp only [List.cons_append, processLines, List.append_eq]
    rw [ih]
    simp [List.append_assoc]

theorem processRing (st : LteState) :
    processUnsolicited st "RING"
      = ({ st with inCall := true, callConnected := false, callNotificationSent := false },
         [Emission.statusChanged "Incoming call"]) := by
  unfold processUnsolicited
  rw [if_neg (by decide), if_pos (by decide)]

theorem processClip_first (st : LteState) (l num : String)
    (h1 : isIgnoredLine l = false) (h2 : strStartsWith l "RING" = false)
    (h3 : strContains l "+CLIP:" = true) (hm : clipMatch l = some num)
    (hns : st.callNotificationSent = false) (hic : st.inCall = true) :
    processUnsolicited st l
      = ({ st with callNumber := some num, callNotificationSent := true },
         [Emission.callReceived num]) := by
  unfold processUnsolicited
  rw [h1, h2, h3]
  simp only [Bool.false_eq_true, if_false, if_true, hm]
  rw [if_pos ⟨by rw [hns]; exact Bool.noConfusion, hic⟩]

theorem processClip_notified (st : LteState) (l num : String)
    (h1 : isIgnoredLine l = false) (h2 : strStartsWith l "RING" = false)
    (h3 : strContains l "+CLIP:" = true) (hm : clipMatch l = some num)
    (hns : st.callNotificationSent = true) :
    processUnsolicited st l = ({ st with callNumber := some num }, []) := by
  unfold processUnsolicited
  rw [h1, h2, h3]
  simp only [Bool.false_eq_true, if_false, if_true, hm]
  rw [if_neg (fun h => h.1 hns)]


theorem processBegin (st : LteState) (hconn : st.connected = true) :
    processUnsolicited st "VOICE CALL: BEGIN"
      = ({ st with inCall := true, callConnected := true },
         [Emission.statusChanged "Call in progress"]
           ++ ((if st.devOk then [Emission.statusChanged "PCM audio unregistered successfully"]
               else [Emission.statusChanged "PCM audio unregistration sent"])
              ++ [Emission.pcmAudioStatus false])
           ++ ((if st.devOk then [Emission.statusChanged "PCM audio registered successfully"]
               else [Emission.statusChanged "PCM audio registration sent"])
              ++ [Emission.pcmAudioStatus true])) := by
  unfold processUnsolicited
  rw [if_neg (by decide), if_neg (by decide), if_neg (by decide), if_neg (by decide),
    if_pos (by decide)]
  unfold unregisterPcmAudio registerPcmAudio
  simp only [hconn, Bool.not_true, Bool.false_eq_true, if_false, if_true]

theorem processEnd (st : LteState) (l n : String)
    (h1 : isIgnoredLine l = false) (h2 : strStartsWith l "RING" = false)
    (h3 : strContains l "+CLIP:" = false) (h4 : strContains l "NO CARRIER" = false)
    (h5 : strContains l "VOICE CALL: BEGIN" = false)
    (h6 : strContains l "VOICE CALL: END:" = true)
    (hdur : durMatch l = some n) (hconn : st.connected = true) :
    processUnsolicited st l
      = ({ st with inCall := false, callConnected := false },
         ((if st.devOk then [Emission.statusChanged "PCM audio unregistered successfully"]
           else [Emission.statusChanged "PCM audio unregistration sent"])
          ++ [Emission.pcmAudioStatus false])
         ++ [Emission.callEnded n]) := by
  unfold processUnsolicited
  rw [h1, h2, h3, h4, h5, h6]
  simp only [Bool.false_eq_true, if_false, if_true, hdur]
  unfold ensurePcmUnregistered unregisterPcmAudio
  simp only [hconn, Bool.not_true, Bool.false_eq_true, if_false, if_true, Option.getD_some]


/-- C3 counterexample: processing exactly one VOICE CALL: BEGIN followed
by one VOICE CALL: END emits the audio-stop signal twice, not once: once
as the defensive stop that precedes the start, once at the end of the
call. -/
theorem C3_audio_stop_twice_counterexample :
    ((processLines connectedState ["VOICE CALL: BEGIN", "VOICE CALL: END: 5"]).2.filter
        (fun e => e == Emission.pcmAudioStatus false)).length = 2 := by
  rfl

/-- C3 amended: over a sequence holding exactly one VOICE CALL: BEGIN,
then only lines the dispatcher ignores, then exactly one VOICE CALL: END
with duration n, the engine emits pcm_audio_status true exactly once,
pcm_audio_status false exactly twice (the defensive stop before the
start plus the stop at call end), and call_ended exactly once carrying
the duration n. -/
theorem C3_audio_session_amended (st : LteState) (mid : List String) (endLine n : String)
    (hconn : st.connected = true)
    (hmid : ∀ l ∈ mid, isIgnoredLine l = true)
    (h1 : isIgnoredLine endLine = false) (h2 : strStartsWith endLine "RING" = false)
    (h3 : strContains endLine "+CLIP:" = false)
    (h4 : strContains endLine "NO CARRIER" = false)
    (h5 : strContains endLine "VOICE CALL: BEGIN" = false)
    (h6 : strContains endLine "VOICE CALL: END:" = true)
    (hdur : durMatch endLine = some n) :
    (((processLines st ("VOICE CALL: BEGIN" :: (mid ++ [endLine]))).2.filter
        (fun e => e == Emission.pcmAudioStatus true)).length = 1)
    ∧ (((processLines st ("VOICE CALL: BEGIN" :: (mid ++ [endLine]))).2.filter
        (fun e => e == Emission.pcmAudioStatus false)).length = 2)
    ∧ ((processLines st ("VOICE CALL: BEGIN" :: (mid ++ [endLine]))).2.filter
        isCallEndedEm = [Emission.callEnded n]) := by
  have hb := processBegin st hconn
  set st1 : LteState := { st with inCall := true, callConnected := true } with hst1
  have hconn1 : st1.connected = true := hconn
  have hmids : processLines st1 mid = (st1, []) := processLines_ignored st1 mid hmid
  have hend := processEnd st1 endLine n h1 h2 h3 h4 h5 h6 hdur hconn1
  have hfull : processLines st ("VOICE CALL: BEGIN" :: (mid ++ [endLine]))
      = ((processUnsolicited st1 endLine).1,
         ([Emission.statusChanged "Call in progress"]
           ++ ((if st.devOk then [Emission.statusChanged "PCM audio unregistered successfully"]
               else [Emission.statusChanged "PCM audio unregistration sent"])
              ++ [Emission.pcmAudioStatus false])
           ++ ((if st.devOk then [Emission.statusChanged "PCM audio registered successfully"]
               else [Emission.statusChanged "PCM audio registration sent"])
              ++ [Emission.pcmAudioStatus true]))
          ++ (processUnsolicited st1 endLine).2) := by
    simp only [processLines, hb, processLines_append, hmids, List.nil_append]
    simp [processLines]
  rw [hfull, hend]
  have hdev1 : st1.devOk = st.devOk := rfl
  cases hdev : st.devOk <;>
    simp [hdev, hdev1, List.filter_append, isCallEndedEm]

/-- C3 amended witness: the two-line sequence with duration 5 at concrete
inputs. -/
theorem C3_audio_session_amended_witness :
    (((processLines connectedState ("VOICE CALL: BEGIN" :: ([] ++ ["VOICE CALL: END: 5"]))).2.filter
        (fun e => e == Emission.pcmAudioStatus true)).length = 1)
    ∧ (((processLines connectedState ("VOICE CALL: BEGIN" :: ([] ++ ["VOICE CALL: END: 5"]))).2.filter
        (fun e => e == Emission.pcmAudioStatus false)).length = 2)
    ∧ ((processLines connectedState ("VOICE CALL: BEGIN" :: ([] ++ ["VOICE CALL: END: 5"]))).2.filter
        isCallEndedEm = [Emission.callEnded "5"]) :=
  C3_audio_session_amended connectedState [] "VOICE CALL: END: 5" "5" (by decide)
    (by intro l hl; cases hl) (by decide) (by decide) (by decide) (by decide) (by decide)
    (by decide) (by decide)


/-- Once the notified flag is set, further CLIP lines emit nothing. -/
theorem processLines_clips_no_emit (st : LteState) (clips : List String)
    (hns : st.callNotificationSent = true)
    (hr : ∀ l ∈ clips, isIgnoredLine l = false ∧ strStartsWith l "RING" = false
      ∧ strContains l "+CLIP:" = true ∧ (clipMatch l).isSome = true) :
    (processLines st clips).2.filter isCallReceivedEm = [] := by
  induction clips generalizing st with
  | nil => rfl
  | cons l ls ih =>
    obtain ⟨h1, h2, h3, h4⟩ := hr l (List.mem_cons_self _ _)
    obtain ⟨num, hm⟩ := Option.isSome_iff_exists.mp h4
    simp only [processLines, processClip_notified st l num h1 h2 h3 hm hns,
      List.nil_append]
    exact ih { st with callNumber := some num } hns
      (fun x hx => hr x (List.mem_cons_of_mem _ hx))

/-- C5: after a RING, the first well-formed CLIP line emits the
incoming-call event exactly once, and any further CLIP lines before the
next RING or call end emit no further event; the notified flag guarding
this is reset by RING and by the NO CARRIER call end. -/
theorem C5_clip_notified_once (st : LteState) (c0 num : String) (clips : List String)
    (h01 : isIgnoredLine c0 = false) (h02 : strStartsWith c0 "RING" = false)
    (h03 : strContains c0 "+CLIP:" = true) (h0m : clipMatch c0 = some num)
    (hr : ∀ l ∈ clips, isIgnoredLine l = false ∧ strStartsWith l "RING" = false
      ∧ strContains l "+CLIP:" = true ∧ (clipMatch l).isSome = true) :
    ((processLines st ("RING" :: c0 :: clips)).2.filter isCallReceivedEm
      = [Emission.callReceived num])
    ∧ (processUnsolicited st "RING").1.callNotificationSent = false
    ∧ (processUnsolicited st "NO CARRIER").1.callNotificationSent = false := by
  refine ⟨?_, rfl, rfl⟩
  have hring := processRing st
  set st1 : LteState :=
    { st with inCall := true, callConnected := false, callNotificationSent := false }
    with hst1
  have hclip := processClip_first st1 c0 num h01 h02 h03 h0m rfl rfl
  set st2 : LteState := { st1 with callNumber := some num, callNotificationSent := true }
    with hst2
  have hrest : (processLines st2 clips).2.filter isCallReceivedEm = [] :=
    processLines_clips_no_emit st2 clips rfl hr
  simp only [processLines, hring, hclip, List.filter_append, hrest]
  rfl

/-- C5 witness: scenario A of the specification, with a repeated CLIP
line, at concrete inputs. -/
theorem C5_clip_notified_once_witness :
    ((processLines initialState
        ("RING" :: "+CLIP: \"+8613800000000\",129,\"\",0,\"\",0"
          :: ["+CLIP: \"+8613800000000\",129,\"\",0,\"\",0"])).2.filter isCallReceivedEm
      = [Emission.callReceived "+8613800000000"])
    ∧ (processUnsolicited initialState "RING").1.callNotificationSent = false
    ∧ (processUnsolicited initialState "NO CARRIER").1.callNotificationSent = false :=
  C5_clip_notified_once initialState "+CLIP: \"+8613800000000\",129,\"\",0,\"\",0"
    "+8613800000000" ["+CLIP: \"+8613800000000\",129,\"\",0,\"\",0"]
    (by decide) (by decide) (by decide) (by decide)
    (by intro l hl
        rw [List.mem_singleton] at hl
        subst hl
        exact ⟨by decide, by decide, by decide, by decide⟩)


theorem processHeader (st : LteState) (H sender ts : String)
    (h1 : isIgnoredLine H = false) (h2 : strStartsWith H "RING" = false)
    (h3 : strContains H "+CLIP:" = false) (h4 : strContains H "NO CARRIER" = false)
    (h5 : strContains H "VOICE CALL: BEGIN" = false)
    (h6 : strContains H "VOICE CALL: END:" = false)
    (h7 : strContains H "MISSED_CALL:" = false)
    (h8 : strStartsWith H "+CMT:" = true)
    (hm : cmtMatch H = some (sender, ts))
    (hs : strStartsWith sender "00" = false)
    (hkey : dictGet (sender ++ "_" ++ ⟨ts.data.take 10⟩) st.concatSmsParts = none) :
    processUnsolicited st H
      = ({ st with waitingForSmsContent := true,
                   currentSmsId := some (sender ++ "_" ++ ⟨ts.data.take 10⟩),
                   currentIsContinuation := some false,
                   pendingSmsSender := some sender,
                   pendingSmsTimestamp := some ts }, []) := by
  unfold processUnsolicited
  rw [h1, h2, h3, h4, h5, h6, h7, h8]
  simp only [Bool.false_eq_true, if_false, if_true]
  unfold smsHeaderStep
  rw [hm]
  simp only [hs, Bool.false_eq_true, if_false, hkey]
  rfl

theorem processContent_bare (st : LteState) (L d : String)
    (h1 : isIgnoredLine L = false) (h2 : strStartsWith L "RING" = false)
    (h3 : strContains L "+CLIP:" = false) (h4 : strContains L "NO CARRIER" = false)
    (h5 : strContains L "VOICE CALL: BEGIN" = false)
    (h6 : strContains L "VOICE CALL: END:" = false)
    (h7 : strContains L "MISSED_CALL:" = false)
    (h8 : strStartsWith L "+CMT:" = false)
    (hw : st.waitingForSmsContent = true)
    (hhex : (L.data.filter (fun c => c != ' ')).all isHexChar = true)
    (hdec : ucs2_to_text L = some d)
    (hne : d ≠ "")
    (hmark : strContains L specialMarker = false)
    (hurl : strContains d "https://" = false)
    (hcont : st.currentIsContinuation = some false) :
    processUnsolicited st L
      = ({ st with waitingForSmsContent := false, currentSmsId := none,
                   currentIsContinuation := none,
                   pendingSmsSender := none, pendingSmsTimestamp := none },
         [Emission.smsReceived (st.pendingSmsSender.getD "None")
            (st.pendingSmsTimestamp.getD "None") d]) := by
  have htruthy : optTruthy (some d) = true := by
    simp only [optTruthy]
    cases hdd : d.data with
    | nil => exact absurd (by rw [String.ext_iff]; exact hdd) hne
    | cons a l => rfl
  have hcd : contentDecode L = some d := by
    unfold contentDecode
    rw [hdec]
  unfold processUnsolicited
  rw [h1, h2, h3, h4, h5, h6, h7, h8]
  simp only [Bool.false_eq_true, if_false, if_true]
  rw [if_pos hw]
  unfold smsContentStep
  rw [hcont, hhex]
  simp only [if_true, hcd, hmark, htruthy, hurl, Option.getD_some, Bool.false_eq_true,
    Bool.true_and, Bool.false_or, Bool.and_self, if_false, Bool.or_self]
  rfl


/-- C7 counterexample: a bare header followed by one hex content line is
NOT always emitted immediately.  When the decoded content contains a URL
the source routes it into the long-message buffer and only schedules a
merge timer: no sms_received is emitted on processing the content line. -/
theorem C7_url_content_not_immediate_counterexample :
    ((processLines initialState
        ["+CMT: \"+8613800000000\",\"\",\"24/06/01,10:23:45+32\"",
         "00680074007400700073003A002F002F0061"]).2.filter isSmsReceivedEm = [])
    ∧ ((processLines initialState
        ["+CMT: \"+8613800000000\",\"\",\"24/06/01,10:23:45+32\"",
         "00680074007400700073003A002F002F0061"]).2.filter isScheduleMergeEm
        = [Emission.scheduleMerge 30 "+8613800000000_24/06/01,1"]) :=
  ⟨rfl, rfl⟩

/-- C7 amended: for a bare header and one hex content line, exactly one
sms_received is emitted immediately with the UCS2-decoded content and no
merge timer is scheduled, PROVIDED the raw line does not carry the
long-message marker, the decoded text does not contain a URL, and no
concat buffer exists for the sender and timestamp key; otherwise the
line is diverted to the long-message path. -/
theorem C7_bare_sms_immediate (st : LteState) (H L sender ts d : String)
    (hH1 : isIgnoredLine H = false) (hH2 : strStartsWith H "RING" = false)
    (hH3 : strContains H "+CLIP:" = false) (hH4 : strContains H "NO CARRIER" = false)
    (hH5 : strContains H "VOICE CALL: BEGIN" = false)
    (hH6 : strContains H "VOICE CALL: END:" = false)
    (hH7 : strContains H "MISSED_CALL:" = false)
    (hH8 : strStartsWith H "+CMT:" = true)
    (hm : cmtMatch H = some (sender, ts))
    (hs : strStartsWith sender "00" = false)
    (hkey : dictGet (sender ++ "_" ++ ⟨ts.data.take 10⟩) st.concatSmsParts = none)
    (hL1 : isIgnoredLine L = false) (hL2 : strStartsWith L "RING" = false)
    (hL3 : strContains L "+CLIP:" = false) (hL4 : strContains L "NO CARRIER" = false)
    (hL5 : strContains L "VOICE CALL: BEGIN" = false)
    (hL6 : strContains L "VOICE CALL: END:" = false)
    (hL7 : strContains L "MISSED_CALL:" = false)
    (hL8 : strStartsWith L "+CMT:" = false)
    (hhex : (L.data.filter (fun c => c != ' ')).all isHexChar = true)
    (hdec : ucs2_to_text L = some d)
    (hne : d ≠ "")
    (hmark : strContains L specialMarker = false)
    (hurl : strContains d "https://" = false) :
    ((processLines st [H, L]).2.filter isSmsReceivedEm = [Emission.smsReceived sender ts d])
    ∧ ((processLines st [H, L]).2.filter isScheduleMergeEm = []) := by
  have hH := processHeader st H sender ts hH1 hH2 hH3 hH4 hH5 hH6 hH7 hH8 hm hs hkey
  set st1 : LteState :=
    { st with waitingForSmsContent := true,
              currentSmsId := some (sender ++ "_" ++ ⟨ts.data.take 10⟩),
              currentIsContinuation := some false,
              pendingSmsSender := some sender,
              pendingSmsTimestamp := some ts } with hst1
  have hL := processContent_bare st1 L d hL1 hL2 hL3 hL4 hL5 hL6 hL7 hL8 rfl
    hhex hdec hne hmark hurl rfl
  simp only [processLines, hH, hL, List.nil_append, List.append_nil, List.filter_append]
  exact ⟨rfl, rfl⟩

/-- C7 amended witness: a Chinese two-character SMS at concrete inputs. -/
theorem C7_bare_sms_immediate_witness :
    ((processLines initialState
        ["+CMT: \"+8613800000000\",\"\",\"24/06/01,10:23:45+32\"", "4F60597D"]).2.filter
        isSmsReceivedEm = [Emission.smsReceived "+8613800000000" "24/06/01,10:23:45+32" "你好"])
    ∧ ((processLines initialState
        ["+CMT: \"+8613800000000\",\"\",\"24/06/01,10:23:45+32\"", "4F60597D"]).2.filter
        isScheduleMergeEm = []) :=
  C7_bare_sms_immediate initialState
    "+CMT: \"+8613800000000\",\"\",\"24/06/01,10:23:45+32\"" "4F60597D"
    "+8613800000000" "24/06/01,10:23:45+32" "你好"
    (by decide) (by decide) (by decide) (by decide) (by decide) (by decide) (by decide)
    (by decide) (by decide) (by decide) (by decide)
    (by decide) (by decide) (by decide) (by decide) (by decide) (by decide) (by decide)
    (by decide) (by decide) (by decide) (by decide) (by decide) (by decide)

end LTE
